import Mathlib

/-!
# Verification of the Booking-System availability / booking-commit core

Shallow embedding of `apps/api/src/bookings` (the router mounted at
`/bookings`: `GET /bookings/availability` and `POST /bookings`) and of the
storage-layer migration (`CREATE TABLE "Booking"` and its indexes).

Modelling conventions:

* An *instant* (a stored `TIMESTAMP`, i.e. a JS `Date` in UTC) is an `Int`,
  measured in minutes.  All stored timestamps in the source are whole
  minutes, so minute granularity is lossless.
* A *local wall-clock time of day* in the business timezone
  (`Europe/Oslo`) is measured in minutes from local midnight
  (`08:00` = 480, `15:00` = 900).  The `HH:mm` strings the API exchanges
  are in bijection with these minute counts via `hh*60+mm`.
* A calendar date is a record of the `YYYY-MM-DD` components.  The
  timezone database (Luxon's IANA data) is abstracted by a parameter
  `dateBase : OsloDate → Int` giving, for each date, the instant of that
  date's local `08:00`.  Within one date the conversion of a wall time
  `m ≥ 480` to an instant is `dateBase date + (m - 480)`: Europe/Oslo DST
  transitions happen at 02:00/03:00 local, never between 04:00 and
  midnight, so the local-day offset is constant on the whole business
  window.  Wall times `m < 480` are rejected by the grid-alignment check
  (whose `diffMin ≥ 0` conjunct fails for them under any DST resolution),
  so their instants are never consulted.
* Luxon's `DateTime.fromObject` is invalid exactly when a calendar
  component is out of range (month, day-of-month, hour > 23,
  minute > 59); nonexistent/ambiguous DST civil times are resolved, not
  rejected, and only occur before 04:00 local, hence below the grid.
-/

namespace BookingSystem

/-- `BookingStatus` enum of the Prisma schema. -/
inductive BookingStatus where
  | PENDING
  | CONFIRMED
  | CANCELLED
deriving DecidableEq, Repr

/-- A row of the `Booking` table (columns used by the booking core). -/
structure Booking where
  id : Nat
  userId : String
  serviceId : String
  startAt : Int
  endAt : Int
  status : BookingStatus
  note : Option String
deriving DecidableEq, Repr

/-- A row of the `AvailabilitySlot` table (columns used by the core). -/
structure Slot where
  serviceId : String
  startAt : Int
  endAt : Int
deriving DecidableEq, Repr

/-- A row of the `Service` table (columns used by the core). -/
structure Service where
  id : String
  durationMin : Int
  isActive : Bool
deriving DecidableEq, Repr

/-- The persistent store (the three tables the booking core touches).
`nextId` models the id generator for inserted `Booking` rows. -/
structure Store where
  services : List Service
  slots : List Slot
  bookings : List Booking
  nextId : Nat
deriving DecidableEq, Repr

/-- The `YYYY-MM-DD` components of a request's `date` field. -/
structure OsloDate where
  y : Nat
  m : Nat
  d : Nat
deriving DecidableEq, Repr

/-! ## Booking rules (constants of `bookings.ts`) -/

def SESSION_MIN : Int := 15
def BUFFER_MIN : Int := 5
/-- `STEP_MIN = SESSION_MIN + BUFFER_MIN`: 20 minutes between starts. -/
def STEP_MIN : Int := SESSION_MIN + BUFFER_MIN
/-- `DAY_START = { hour: 8, minute: 0 }` as minutes from local midnight. -/
def DAY_START_MIN : Int := 8 * 60
/-- `DAY_END = { hour: 15, minute: 0 }` as minutes from local midnight. -/
def DAY_END_MIN : Int := 15 * 60

/-! ## Clock / timezone normalisation -/

/-- Gregorian leap-year rule (as used by Luxon's proleptic calendar). -/
def isLeapYear (y : Nat) : Bool :=
  y % 4 == 0 && (y % 100 != 0 || y % 400 == 0)

/-- Days in a month of a year (Luxon's `daysInMonth`). -/
def daysInMonth (y mo : Nat) : Nat :=
  if mo == 2 then (if isLeapYear y then 29 else 28)
  else if mo == 4 || mo == 6 || mo == 9 || mo == 11 then 30
  else 31

/-- Validity of the calendar-date components: `DateTime.fromObject`
is invalid iff a component is out of range. -/
def isValidDate (dt : OsloDate) : Bool :=
  1 ≤ dt.m && dt.m ≤ 12 && 1 ≤ dt.d && dt.d ≤ daysInMonth dt.y dt.m

/-- Validity of the `HH:mm` components (Luxon: `hour ≤ 23`, `minute ≤ 59`). -/
def isValidTime (hh mm : Nat) : Bool :=
  hh ≤ 23 && mm ≤ 59

/-- Wall-clock minutes from local midnight of an `HH:mm` pair. -/
def wallMinutes (hh mm : Nat) : Int :=
  (hh : Int) * 60 + (mm : Int)

/-- The instant of wall time `m` (minutes from local midnight) on the date
whose local `08:00` is the instant `base`.  Exact for `m ≥ 240` (no Oslo
DST transition between 04:00 and midnight); only consulted for `m ≥ 480`. -/
def toInstant (base : Int) (m : Int) : Int :=
  base + (m - DAY_START_MIN)

/-! ## Grid & business-hours validators (`isAlignedToStep`,
`validateWithinBusinessHours`, `buildSessionStartsUtc`,
`isSessionCoveredBySlots` of `bookings.ts`) -/

/-- `isAlignedToStep`: the minutes elapsed since the same date's 08:00 is
a non-negative multiple of `STEP_MIN`.  `m` is the wall time in minutes;
`diffMin = m - 480` agrees with Luxon's instant difference whenever
`m ≥ 480`, and both are negative when `m < 480`. -/
def isAlignedToStep (m : Int) : Bool :=
  let diffMin := m - DAY_START_MIN
  decide (0 ≤ diffMin) && decide (diffMin % STEP_MIN = 0)

/-- `validateWithinBusinessHours start sessions`: `none` means `{ ok: true }`,
`some msg` carries the failure message of the source. -/
def validateWithinBusinessHours (m : Int) (sessions : Nat) : Option String :=
  if m < DAY_START_MIN then
    some "Start time is before opening hours (08:00)."
  else
    let lastStart := m + ((sessions : Int) - 1) * STEP_MIN
    let lastEnd := lastStart + SESSION_MIN
    if lastEnd > DAY_END_MIN then
      some "Selected sessions exceed opening hours (must end by 15:00 Oslo time)."
    else
      none

/-- `buildSessionStartsUtc`: the instants `start + i*STEP_MIN` for
`i ∈ 0..sessions-1`. -/
def buildSessionStartsUtc (startInstant : Int) (sessions : Nat) : List Int :=
  (List.range sessions).map (fun (i : Nat) => startInstant + STEP_MIN * (i : Int))

/-- `isSessionCoveredBySlots`: `[startAt, endAt]` is fully contained in at
least one slot. -/
def isSessionCoveredBySlots (startAt endAt : Int) (slots : List Slot) : Bool :=
  slots.any (fun s => decide (s.startAt ≤ startAt) && decide (endAt ≤ s.endAt))

/-! ## Store queries used by the two routes -/

/-- `prisma.service.findUnique({ where: { id } })`. -/
def findService (st : Store) (serviceId : String) : Option Service :=
  st.services.find? (fun sv => sv.id == serviceId)

/-- Slots of the service overlapping the business day
(`startAt < dayEndUtc AND endAt > dayStartUtc`); `base` is the instant of
the date's local 08:00, so the day window is `[base, base + 420)`. -/
def fetchDaySlots (st : Store) (serviceId : String) (base : Int) : List Slot :=
  st.slots.filter (fun s =>
    s.serviceId == serviceId
      && decide (s.startAt < base + (DAY_END_MIN - DAY_START_MIN))
      && decide (base < s.endAt))

/-- Start instants of non-cancelled bookings of the service starting in
the business day (`status != CANCELLED`, `startAt ∈ [dayStartUtc, dayEndUtc)`). -/
def fetchBookedStarts (st : Store) (serviceId : String) (base : Int) : List Int :=
  (st.bookings.filter (fun b =>
    b.serviceId == serviceId
      && !(b.status == BookingStatus.CANCELLED)
      && decide (base ≤ b.startAt)
      && decide (b.startAt < base + (DAY_END_MIN - DAY_START_MIN)))).map
    (fun b => b.startAt)

/-! ## `GET /bookings/availability` -/

/-- One candidate of the grid walk: covered by some fetched slot and its
start instant not in the booked set. -/
def availCandidateOk (st : Store) (serviceId : String) (base : Int) (m : Int) : Bool :=
  let startUtc := toInstant base m
  let endUtc := startUtc + SESSION_MIN
  let covered := (fetchDaySlots st serviceId base).any
    (fun s => decide (s.startAt ≤ startUtc) && decide (endUtc ≤ s.endAt))
  covered && !((fetchBookedStarts st serviceId base).contains startUtc)

/-- The grid walk `for (t = dayStart; t < dayEnd; t += STEP_MIN)`,
accumulating the local times (in minutes) of the accepted candidates. -/
def availWalk (st : Store) (serviceId : String) (base : Int) (m : Int) : List Int :=
  if _h : m < DAY_END_MIN then
    let rest := availWalk st serviceId base (m + STEP_MIN)
    if availCandidateOk st serviceId base m then m :: rest else rest
  else
    []
termination_by (DAY_END_MIN - m).toNat
decreasing_by simp only [DAY_END_MIN, STEP_MIN, SESSION_MIN, BUFFER_MIN] at *; omega

/-- Result of `GET /bookings/availability`.  `ok` carries the accepted
local times (their `HH:mm` rendering is `m / 60 : m % 60`). -/
inductive AvailResult where
  | badRequest (msg : String)
  | notFound (msg : String)
  | ok (times : List Int)
deriving DecidableEq, Repr

/-- `GET /bookings/availability?serviceId=...&date=...`.  The route checks
the query shape, that the service exists, is active and has the fixed
15-minute duration, then walks the grid.  `dateBase` abstracts the
timezone database (instant of each date's local 08:00). -/
def getAvailability (dateBase : OsloDate → Int) (st : Store) (serviceId : String)
    (date : OsloDate) : AvailResult :=
  if serviceId == "" then .badRequest "serviceId is required"
  else
    match findService st serviceId with
    | none => .notFound "Service not found or inactive"
    | some sv =>
      if !sv.isActive then .notFound "Service not found or inactive"
      else if !(sv.durationMin == SESSION_MIN) then
        .badRequest "Service duration must be 15 minutes"
      else
        .ok (availWalk st serviceId (dateBase date) DAY_START_MIN)

/-! ## `POST /bookings` -/

/-- The fields of a created booking returned to the client
(`select: { id, startAt, endAt, status }`). -/
structure BookingView where
  id : Nat
  startAt : Int
  endAt : Int
  status : BookingStatus
deriving DecidableEq, Repr

/-- Result of `POST /bookings`, one constructor per return site of the
handler; names follow the spec's error taxonomy, the carried data the
source's response bodies. -/
inductive CommitResult where
  /-- zod `safeParse` failure (shape/regex/bounds), HTTP 400. -/
  | schemaError
  /-- `!startOslo.isValid`, HTTP 400 `Invalid date/startTime`. -/
  | invalidInput
  /-- `!isAlignedToStep(startOslo)`, HTTP 400. -/
  | notOnGrid
  /-- `validateWithinBusinessHours` failed, HTTP 400 with its message. -/
  | outsideBusinessHours (msg : String)
  /-- `startOslo < DateTime.now()`, HTTP 400 `Cannot book a time in the past`. -/
  | inThePast
  /-- service missing or inactive, HTTP 404. -/
  | serviceUnavailable
  /-- `service.durationMin !== SESSION_MIN`, HTTP 400. -/
  | wrongDuration
  /-- some session not covered by the fetched availability slots, HTTP 400. -/
  | notWithinAvailability
  /-- transactional re-check found claims, HTTP 409 with `(id, startAt)`
  of each conflicting booking. -/
  | conflict (conflicts : List (Nat × Int))
  /-- HTTP 201 with `count` and the re-fetched bookings. -/
  | booked (count : Nat) (bookings : List BookingView)
  /-- the `catch` around the transaction, HTTP 500 `Server error`. -/
  | serverError
deriving DecidableEq, Repr

/-- The zod `createBookingSchema` together with the wire-level shape the
regexes enforce: `serviceId` nonempty, digit-count bounds on the date and
time components, `sessions ∈ [1, 30]`, `note` at most 500 characters. -/
def schemaAccepts (serviceId : String) (date : OsloDate) (hh mm : Nat)
    (sessions : Nat) (note : Option String) : Bool :=
  !(serviceId == "") && date.y ≤ 9999 && date.m ≤ 99 && date.d ≤ 99
    && hh ≤ 99 && mm ≤ 99 && 1 ≤ sessions && sessions ≤ 30
    && (note.getD "").length ≤ 500

/-- Insertion into a list sorted by `startAt` (ascending). -/
def insertByStart (b : Booking) : List Booking → List Booking
  | [] => [b]
  | c :: cs => if b.startAt ≤ c.startAt then b :: c :: cs
               else c :: insertByStart b cs

/-- `orderBy: { startAt: "asc" }` on a query result. -/
def sortByStart (l : List Booking) : List Booking :=
  l.foldr insertByStart []

/-- The rows the transaction inserts: one per computed instant, status
`CONFIRMED`, shared `userId`/`serviceId`/`note`, `endAt = startAt +
SESSION_MIN`, ids drawn from the store's generator. -/
def newBookingRows (userId serviceId : String) (note : Option String)
    (nextId : Nat) (startsUtc : List Int) : List Booking :=
  (List.enum startsUtc).map (fun p =>
    { id := nextId + p.1
      userId := userId
      serviceId := serviceId
      startAt := p.2
      endAt := p.2 + SESSION_MIN
      status := BookingStatus.CONFIRMED
      note := note })

/-- Phase 1 of the `prisma.$transaction` body: the conflict re-check
(`tx.booking.findMany` for non-cancelled bookings of the service whose
`startAt` is among the computed instants), a read. -/
def txConflictCheck (st : Store) (serviceId : String) (startsUtc : List Int) :
    List Booking :=
  st.bookings.filter (fun b =>
    b.serviceId == serviceId
      && !(b.status == BookingStatus.CANCELLED)
      && startsUtc.contains b.startAt)

/-- Phase 2 of the transaction: the insert (`tx.booking.createMany` of
the rows built from the computed instants), a write. -/
def txInsert (st : Store) (userId serviceId : String) (note : Option String)
    (startsUtc : List Int) : Store :=
  { st with bookings := st.bookings ++ newBookingRows userId serviceId note st.nextId startsUtc
            nextId := st.nextId + startsUtc.length }

/-- The re-fetch after the insert (`tx.booking.findMany` by
`userId/serviceId/startAt ∈ startsUtc`, `orderBy startAt asc`, selecting
`id, startAt, endAt, status`).  Note: no status filter. -/
def bookedViews (st : Store) (userId serviceId : String) (startsUtc : List Int) :
    List BookingView :=
  (sortByStart (st.bookings.filter (fun b =>
    b.userId == userId && b.serviceId == serviceId
      && startsUtc.contains b.startAt))).map
    (fun b => ⟨b.id, b.startAt, b.endAt, b.status⟩)

/-- The `prisma.$transaction` body: re-check conflicts, insert, re-fetch.
`raiseOnInsert` models a storage error thrown by `createMany` (e.g. a
constraint violation): the transaction rolls back and the handler's
`catch` answers 500.  Returns the result and the store after the call. -/
def runBookingTransaction (st : Store) (userId serviceId : String)
    (note : Option String) (startsUtc : List Int) (raiseOnInsert : Bool) :
    CommitResult × Store :=
  let conflicts := txConflictCheck st serviceId startsUtc
  if !(conflicts == []) then
    (.conflict (conflicts.map (fun b => (b.id, b.startAt))), st)
  else if raiseOnInsert then
    (.serverError, st)
  else
    let st2 := txInsert st userId serviceId note startsUtc
    (.booked (newBookingRows userId serviceId note st.nextId startsUtc).length
      (bookedViews st2 userId serviceId startsUtc),
     st2)

/-- The validation pipeline of `POST /bookings`, one early return per
`return res.status(...)` of the source, in source order: schema, parse,
grid alignment, business hours, past check, service lookup and duration,
availability coverage.  On success it yields the computed session start
instants. -/
def validateBookingRequest (dateBase : OsloDate → Int) (st : Store)
    (serviceId : String) (date : OsloDate) (hh mm : Nat)
    (sessions : Nat) (note : Option String) (now : Int) :
    Except CommitResult (List Int) :=
  if !(schemaAccepts serviceId date hh mm sessions note) then
    .error .schemaError
  else if !(isValidDate date && isValidTime hh mm) then
    .error .invalidInput
  else
    let m := wallMinutes hh mm
    if !(isAlignedToStep m) then .error .notOnGrid
    else
      match validateWithinBusinessHours m sessions with
      | some msg => .error (.outsideBusinessHours msg)
      | none =>
        let startInstant := toInstant (dateBase date) m
        if startInstant < now then .error .inThePast
        else
          match findService st serviceId with
          | none => .error .serviceUnavailable
          | some sv =>
            if !sv.isActive then .error .serviceUnavailable
            else if !(sv.durationMin == SESSION_MIN) then .error .wrongDuration
            else
              let startsUtc := buildSessionStartsUtc startInstant sessions
              let lastStart := startInstant + STEP_MIN * ((sessions : Int) - 1)
              let lastEnd := lastStart + SESSION_MIN
              let candidateSlots := st.slots.filter (fun s =>
                s.serviceId == serviceId
                  && decide (s.startAt < lastEnd)
                  && decide (startInstant < s.endAt))
              if startsUtc.any (fun s0 =>
                  !(isSessionCoveredBySlots s0 (s0 + SESSION_MIN) candidateSlots)) then
                .error .notWithinAvailability
              else
                .ok startsUtc

/-- `POST /bookings`: the full handler after authentication.  `now` is the
instant of `DateTime.now()`; `dateBase` abstracts the timezone database;
`raiseOnInsert` as in `runBookingTransaction` (the real insert path is
`raiseOnInsert = false`). -/
def commitBooking (dateBase : OsloDate → Int) (st : Store)
    (userId serviceId : String) (date : OsloDate) (hh mm : Nat)
    (sessions : Nat) (note : Option String) (now : Int)
    (raiseOnInsert : Bool) : CommitResult × Store :=
  match validateBookingRequest dateBase st serviceId date hh mm sessions note now with
  | .error e => (e, st)
  | .ok startsUtc =>
      runBookingTransaction st userId serviceId note startsUtc raiseOnInsert

/-! ## Storage layer (the migration's index declarations) -/

/-- An index declaration of the SQL migration. -/
structure IndexDecl where
  table : String
  columns : List String
  unique : Bool
deriving DecidableEq, Repr

/-- The `CREATE INDEX` / `CREATE UNIQUE INDEX` statements of the
migration, in order. -/
def migrationIndexes : List IndexDecl :=
  [ ⟨"User", ["email"], true⟩,
    ⟨"AvailabilitySlot", ["serviceId", "startAt"], false⟩,
    ⟨"Booking", ["serviceId", "startAt"], false⟩,
    ⟨"Booking", ["userId", "createdAt"], false⟩ ]

/-! ## Fine-grained interleaving of two transactions

Under the store's default isolation the two phases of
`runBookingTransaction` of two concurrent requests may interleave: both
conflict re-checks can read the same committed state before either
insert commits. -/

/-- The check-check-insert-insert interleaving of two commits: both
re-checks read `st`, then both inserts are applied.  Returns the final
store when neither check found a conflict (`none` when one aborted). -/
def interleavedPair (st : Store) (u1 u2 s1 s2 : String)
    (n1 n2 : Option String) (starts1 starts2 : List Int) : Option Store :=
  if txConflictCheck st s1 starts1 == [] && txConflictCheck st s2 starts2 == [] then
    some (txInsert (txInsert st u1 s1 n1 starts1) u2 s2 n2 starts2)
  else
    none

/-! ## Spec-side characterisations and invariants

These definitions follow the wording of the specification; the theorems
below relate them to the source-side definitions above. -/

/-- The grid the walk of `GET /bookings/availability` traverses:
`m, m + STEP_MIN, ...` while `< DAY_END_MIN`. -/
def gridFrom (m : Int) : List Int :=
  if _h : m < DAY_END_MIN then m :: gridFrom (m + STEP_MIN) else []
termination_by (DAY_END_MIN - m).toNat
decreasing_by simp only [DAY_END_MIN, STEP_MIN, SESSION_MIN, BUFFER_MIN] at *; omega

/-- The spec's availability condition for a candidate local time `t`:
some fetched window fully contains `[candidateStart, candidateEnd]`
(`window.start <= candidateStart AND window.end >= candidateEnd`) and the
candidate start instant is not among the fetched booked starts. -/
def specAvailable (st : Store) (serviceId : String) (base : Int) (t : Int) : Prop :=
  (∃ s ∈ fetchDaySlots st serviceId base,
      s.startAt ≤ toInstant base t ∧ toInstant base t + SESSION_MIN ≤ s.endAt)
    ∧ toInstant base t ∉ fetchBookedStarts st serviceId base

instance (st : Store) (serviceId : String) (base t : Int) :
    Decidable (specAvailable st serviceId base t) := by
  unfold specAvailable; infer_instance

/-- The no-double-booking invariant: among the bookings of one service
with status ≠ CANCELLED, start instants are unique. -/
def noDoubleBooking (st : Store) : Prop :=
  st.bookings.Pairwise (fun b1 b2 =>
    b1.serviceId = b2.serviceId → b1.status ≠ BookingStatus.CANCELLED →
    b2.status ≠ BookingStatus.CANCELLED → b1.startAt ≠ b2.startAt)

instance (st : Store) : Decidable (noDoubleBooking st) := by
  unfold noDoubleBooking; infer_instance

/-! Failure conditions of the validation pipeline, step by step, as the
spec states them. -/

/-- Step 1 fails: malformed / nonexistent local date-time. -/
def failsParse (date : OsloDate) (hh mm : Nat) : Prop :=
  ¬ (isValidDate date = true ∧ isValidTime hh mm = true)

/-- Step 2 fails: start not aligned to the 20-minute grid from 08:00. -/
def failsGrid (hh mm : Nat) : Prop :=
  ¬ isAlignedToStep (wallMinutes hh mm) = true

/-- Step 3 fails: the batch does not fit inside business hours. -/
def failsHours (hh mm : Nat) (sessions : Nat) : Prop :=
  validateWithinBusinessHours (wallMinutes hh mm) sessions ≠ none

/-- Step 4 fails: the start instant is strictly before the current instant. -/
def failsPast (dateBase : OsloDate → Int) (date : OsloDate) (hh mm : Nat)
    (now : Int) : Prop :=
  toInstant (dateBase date) (wallMinutes hh mm) < now

/-- Step 5 fails: service missing, inactive, or of the wrong duration. -/
def failsService (st : Store) (serviceId : String) : Prop :=
  match findService st serviceId with
  | none => True
  | some sv => sv.isActive = false ∨ sv.durationMin ≠ SESSION_MIN

/-- Step 6 fails: some computed session is not fully covered by a fetched
availability slot. -/
def failsCoverage (dateBase : OsloDate → Int) (st : Store) (serviceId : String)
    (date : OsloDate) (hh mm : Nat) (sessions : Nat) : Prop :=
  let startInstant := toInstant (dateBase date) (wallMinutes hh mm)
  let lastEnd := startInstant + STEP_MIN * ((sessions : Int) - 1) + SESSION_MIN
  let candidateSlots := st.slots.filter (fun s =>
    s.serviceId == serviceId
      && decide (s.startAt < lastEnd)
      && decide (startInstant < s.endAt))
  ∃ s0 ∈ buildSessionStartsUtc startInstant sessions,
    ¬ isSessionCoveredBySlots s0 (s0 + SESSION_MIN) candidateSlots = true

/-! ## Concrete fixtures for witnesses and counterexamples -/

/-- A timezone table placing local 08:00 of every date at instant 60
(Oslo is UTC+1 in winter: local time = instant + 60 under a UTC-midnight
epoch). -/
def exDateBase : OsloDate → Int := fun _ => 60

/-- 2026-01-15, the demo date of the web client. -/
def exDate : OsloDate := ⟨2026, 1, 15⟩

/-- The seeded 15-minute service. -/
def exService : Service := ⟨"singing-15", 15, true⟩

/-- An admin window covering the whole business day of `exDate`. -/
def exSlot : Slot := ⟨"singing-15", 60, 480⟩

/-- Store with the seeded service, a full-day window, no bookings. -/
def exStore : Store := ⟨[exService], [exSlot], [], 0⟩

/-- A pre-existing CANCELLED booking of user `u1` at local 08:00
(instant 60). -/
def exCancelled : Booking :=
  ⟨5, "u1", "singing-15", 60, 75, BookingStatus.CANCELLED, none⟩

/-- `exStore` with the cancelled booking present. -/
def exStoreCancelled : Store := ⟨[exService], [exSlot], [exCancelled], 6⟩

/-- A pre-existing CONFIRMED booking of another user at local 09:00
(instant 120). -/
def exConfirmed : Booking :=
  ⟨7, "u2", "singing-15", 120, 135, BookingStatus.CONFIRMED, none⟩

/-- `exStore` with the confirmed booking present. -/
def exStoreConfirmed : Store := ⟨[exService], [exSlot], [exConfirmed], 8⟩

/-- The store produced by the check-check-insert-insert interleaving of
two one-session commits of 08:00 (`instant 60`) on `exStore`: two
CONFIRMED bookings of the same service at the same start instant. -/
def exRaceStore : Store :=
  ⟨[exService], [exSlot],
   [⟨0, "u1", "singing-15", 60, 75, BookingStatus.CONFIRMED, none⟩,
    ⟨1, "u2", "singing-15", 60, 75, BookingStatus.CONFIRMED, none⟩], 2⟩

/-- The availability of `exStore` on `exDate`: the full 21-candidate grid. -/
def exAvailTimes : List Int :=
  [480, 500, 520, 540, 560, 580, 600, 620, 640, 660, 680, 700, 720,
   740, 760, 780, 800, 820, 840, 860, 880]

/-! ## Helper lemmas -/

theorem availWalk_eq (st : Store) (sid : String) (base : Int) (m : Int) :
    availWalk st sid base m =
      if m < DAY_END_MIN then
        (if availCandidateOk st sid base m
          then m :: availWalk st sid base (m + STEP_MIN)
          else availWalk st sid base (m + STEP_MIN))
      else [] := by
  rw [availWalk]
  split <;> rfl

theorem gridFrom_eq (m : Int) :
    gridFrom m = if m < DAY_END_MIN then m :: gridFrom (m + STEP_MIN) else [] := by
  rw [gridFrom]
  split <;> rfl

/-- The walk is the grid filtered by the candidate test. -/
theorem availWalk_filter_aux (st : Store) (sid : String) (base : Int) :
    ∀ fuel m, (DAY_END_MIN - m).toNat ≤ fuel →
      availWalk st sid base m = (gridFrom m).filter (availCandidateOk st sid base) := by
  intro fuel
  induction fuel with
  | zero =>
      intro m hm
      have h : ¬ m < DAY_END_MIN := by omega
      rw [availWalk_eq, gridFrom_eq]
      simp [h]
  | succ n ih =>
      intro m hm
      rw [availWalk_eq, gridFrom_eq]
      by_cases h : m < DAY_END_MIN
      · have hrec := ih (m + STEP_MIN)
          (by simp only [STEP_MIN, SESSION_MIN, BUFFER_MIN] at *; omega)
        simp [h, hrec, List.filter_cons]
      · simp [h]

theorem availWalk_eq_filter (st : Store) (sid : String) (base : Int) (m : Int) :
    availWalk st sid base m = (gridFrom m).filter (availCandidateOk st sid base) :=
  availWalk_filter_aux st sid base (DAY_END_MIN - m).toNat m le_rfl

/-- The grid walked from 08:00: the 21 candidates 08:00, 08:20, …, 14:40. -/
theorem gridFrom_start : gridFrom DAY_START_MIN =
    (List.range 21).map (fun (k : Nat) => (480 : Int) + 20 * (k : Int)) := by
  have h : gridFrom 480 =
      [480, 500, 520, 540, 560, 580, 600, 620, 640, 660, 680, 700, 720,
       740, 760, 780, 800, 820, 840, 860, 880] := by
    simp [gridFrom_eq, DAY_END_MIN, STEP_MIN, SESSION_MIN, BUFFER_MIN]
  show gridFrom 480 = _
  rw [h]
  decide

/-- Elements of the grid are bounded below by the origin. -/
theorem gridFrom_lower : ∀ fuel m t, (DAY_END_MIN - m).toNat ≤ fuel →
    t ∈ gridFrom m → m ≤ t := by
  intro fuel
  induction fuel with
  | zero =>
      intro m t hm ht
      rw [gridFrom_eq] at ht
      have h : ¬ m < DAY_END_MIN := by omega
      simp [h] at ht
  | succ n ih =>
      intro m t hm ht
      rw [gridFrom_eq] at ht
      by_cases h : m < DAY_END_MIN
      · simp only [h, if_true, List.mem_cons] at ht
        rcases ht with rfl | ht
        · exact le_rfl
        · have := ih (m + STEP_MIN) t
            (by simp only [STEP_MIN, SESSION_MIN, BUFFER_MIN] at *; omega) ht
          simp only [STEP_MIN, SESSION_MIN, BUFFER_MIN] at this
          omega
      · simp [h] at ht

/-- The grid is strictly increasing. -/
theorem gridFrom_sorted : ∀ fuel m, (DAY_END_MIN - m).toNat ≤ fuel →
    List.Sorted (· < ·) (gridFrom m) := by
  intro fuel
  induction fuel with
  | zero =>
      intro m hm
      rw [gridFrom_eq]
      have h : ¬ m < DAY_END_MIN := by omega
      simp [h]
  | succ n ih =>
      intro m hm
      rw [gridFrom_eq]
      by_cases h : m < DAY_END_MIN
      · simp only [h, if_true, List.sorted_cons]
        constructor
        · intro b hb
          have := gridFrom_lower (DAY_END_MIN - (m + STEP_MIN)).toNat (m + STEP_MIN) b le_rfl hb
          simp only [STEP_MIN, SESSION_MIN, BUFFER_MIN] at this
          omega
        · exact ih (m + STEP_MIN)
            (by simp only [STEP_MIN, SESSION_MIN, BUFFER_MIN] at *; omega)
      · simp [h]

/-- The source's candidate test coincides with the spec's condition. -/
theorem availCandidateOk_iff (st : Store) (sid : String) (base t : Int) :
    availCandidateOk st sid base t = true ↔ specAvailable st sid base t := by
  simp [availCandidateOk, specAvailable, List.any_eq_true, List.elem_iff]

/-- Inversion of a successful availability response. -/
theorem getAvailability_ok_inv (dateBase : OsloDate → Int) (st : Store) (sid : String)
    (date : OsloDate) (ts : List Int)
    (h : getAvailability dateBase st sid date = .ok ts) :
    ¬ sid = "" ∧ ∃ sv, findService st sid = some sv ∧ sv.isActive = true ∧
      sv.durationMin = SESSION_MIN ∧
      ts = (gridFrom DAY_START_MIN).filter (availCandidateOk st sid (dateBase date)) := by
  unfold getAvailability at h
  by_cases hs : sid = ""
  · simp [hs] at h
  · refine ⟨hs, ?_⟩
    simp only [beq_iff_eq, hs, if_false] at h
    cases hf : findService st sid with
    | none => rw [hf] at h; cases h
    | some sv =>
        rw [hf] at h
        by_cases ha : sv.isActive
        · by_cases hd : sv.durationMin = SESSION_MIN
          · refine ⟨sv, rfl, ha, hd, ?_⟩
            simp only [ha, hd, Bool.not_true, beq_self_eq_true, if_false, if_true] at h
            simp at h
            rw [← h, availWalk_eq_filter]
          · simp only [ha, Bool.not_true, if_false] at h
            simp [hd] at h
        · simp [ha] at h

theorem sortByStart_cons (b : Booking) (l : List Booking) :
    sortByStart (b :: l) = insertByStart b (sortByStart l) := rfl

theorem insertByStart_of_le (b : Booking) (l : List Booking)
    (h : ∀ c ∈ l, b.startAt ≤ c.startAt) : insertByStart b l = b :: l := by
  cases l with
  | nil => rfl
  | cons c cs => simp [insertByStart, h c (List.mem_cons_self _ _)]

/-- Sorting an already-sorted list is the identity. -/
theorem sortByStart_of_sorted (l : List Booking)
    (h : l.Pairwise (fun a b => a.startAt ≤ b.startAt)) : sortByStart l = l := by
  induction l with
  | nil => rfl
  | cons b cs ih =>
      rw [sortByStart_cons, ih (List.Pairwise.of_cons h)]
      exact insertByStart_of_le b cs (List.pairwise_cons.mp h).1

theorem newBookingRows_length (u sid : String) (note : Option String) (nid : Nat)
    (starts : List Int) : (newBookingRows u sid note nid starts).length = starts.length := by
  simp [newBookingRows]

theorem newBookingRows_startAt (u sid : String) (note : Option String) (nid : Nat)
    (starts : List Int) :
    (newBookingRows u sid note nid starts).map (fun b => b.startAt) = starts := by
  simp [newBookingRows, List.map_map, Function.comp]
  exact List.enum_map_snd starts

theorem newBookingRows_mem (u sid : String) (note : Option String) (nid : Nat)
    (starts : List Int) (b : Booking) (hb : b ∈ newBookingRows u sid note nid starts) :
    b.userId = u ∧ b.serviceId = sid ∧ b.note = note ∧
    b.status = BookingStatus.CONFIRMED ∧ b.endAt = b.startAt + SESSION_MIN ∧
    b.startAt ∈ starts := by
  simp only [newBookingRows, List.mem_map] at hb
  obtain ⟨p, hp, rfl⟩ := hb
  refine ⟨rfl, rfl, rfl, rfl, rfl, ?_⟩
  have := List.enum_map_snd starts
  rw [← this]
  exact List.mem_map_of_mem Prod.snd hp

theorem newBookingRows_sorted (u sid : String) (note : Option String) (nid : Nat)
    (starts : List Int) (h : starts.Pairwise (· ≤ ·)) :
    (newBookingRows u sid note nid starts).Pairwise (fun a b => a.startAt ≤ b.startAt) := by
  rw [← List.enum_map_snd starts] at h
  rw [List.pairwise_map] at h
  unfold newBookingRows
  rw [List.pairwise_map]
  exact h

theorem buildSessionStartsUtc_sorted (inst : Int) (n : Nat) :
    (buildSessionStartsUtc inst n).Pairwise (· ≤ ·) := by
  unfold buildSessionStartsUtc
  rw [List.pairwise_map]
  apply List.Pairwise.imp ?_ (List.pairwise_lt_range n)
  intro a b hab
  simp only [STEP_MIN, SESSION_MIN, BUFFER_MIN]
  omega

theorem commitBooking_of_error (dateBase : OsloDate → Int) (st : Store)
    (userId serviceId : String) (date : OsloDate) (hh mm sessions : Nat)
    (note : Option String) (now : Int) (raise : Bool) (e : CommitResult)
    (h : validateBookingRequest dateBase st serviceId date hh mm sessions note now
      = .error e) :
    commitBooking dateBase st userId serviceId date hh mm sessions note now raise
      = (e, st) := by
  unfold commitBooking
  rw [h]

theorem commitBooking_of_ok (dateBase : OsloDate → Int) (st : Store)
    (userId serviceId : String) (date : OsloDate) (hh mm sessions : Nat)
    (note : Option String) (now : Int) (raise : Bool) (starts : List Int)
    (h : validateBookingRequest dateBase st serviceId date hh mm sessions note now
      = .ok starts) :
    commitBooking dateBase st userId serviceId date hh mm sessions note now raise
      = runBookingTransaction st userId serviceId note starts raise := by
  unfold commitBooking
  rw [h]

/-- When the re-check finds no conflict and the insert does not raise,
the transaction inserts the batch and reports it. -/
theorem runBookingTransaction_success (st : Store) (u sid : String)
    (note : Option String) (starts : List Int)
    (h : txConflictCheck st sid starts = []) :
    runBookingTransaction st u sid note starts false =
      (.booked (newBookingRows u sid note st.nextId starts).length
        (bookedViews (txInsert st u sid note starts) u sid starts),
       txInsert st u sid note starts) := by
  simp [runBookingTransaction, h]

/-- When the re-check finds a conflict the transaction aborts: it reports
the conflicting rows and leaves the store unchanged. -/
theorem runBookingTransaction_conflict (st : Store) (u sid : String)
    (note : Option String) (starts : List Int) (raise : Bool)
    (h : txConflictCheck st sid starts ≠ []) :
    runBookingTransaction st u sid note starts raise =
      (.conflict ((txConflictCheck st sid starts).map (fun b => (b.id, b.startAt))), st) := by
  simp [runBookingTransaction, h]

/-- Inversion: the transaction only reports `booked` on the no-conflict,
no-raise path, and then the store gained exactly the new rows. -/
theorem runBookingTransaction_booked_inv (st : Store) (u sid : String)
    (note : Option String) (starts : List Int) (raise : Bool)
    (n : Nat) (bs : List BookingView)
    (h : (runBookingTransaction st u sid note starts raise).1 = .booked n bs) :
    raise = false ∧ txConflictCheck st sid starts = [] ∧ n = starts.length ∧
    (runBookingTransaction st u sid note starts raise).2 = txInsert st u sid note starts ∧
    bs = bookedViews (txInsert st u sid note starts) u sid starts := by
  by_cases hc : txConflictCheck st sid starts = []
  · cases raise with
    | true => simp [runBookingTransaction, hc] at h
    | false =>
        rw [runBookingTransaction_success st u sid note starts hc] at h ⊢
        simp only [CommitResult.booked.injEq] at h
        exact ⟨rfl, hc, by rw [← h.1, newBookingRows_length], rfl, h.2.symm⟩
  · rw [runBookingTransaction_conflict st u sid note starts raise hc] at h
    cases h

/-- Inversion: a non-`booked` result leaves the store unchanged. -/
theorem runBookingTransaction_not_booked_inv (st : Store) (u sid : String)
    (note : Option String) (starts : List Int) (raise : Bool)
    (h : ∀ n bs, (runBookingTransaction st u sid note starts raise).1 ≠ .booked n bs) :
    (runBookingTransaction st u sid note starts raise).2 = st := by
  by_cases hc : txConflictCheck st sid starts = []
  · cases raise with
    | true => simp [runBookingTransaction, hc]
    | false =>
        exfalso
        exact h _ _ (by rw [runBookingTransaction_success st u sid note starts hc])
  · rw [runBookingTransaction_conflict st u sid note starts raise hc]

/-- Inversion: a `conflict` result carries exactly the re-check's rows
and leaves the store unchanged. -/
theorem runBookingTransaction_conflict_inv (st : Store) (u sid : String)
    (note : Option String) (starts : List Int) (raise : Bool)
    (cs : List (Nat × Int))
    (h : (runBookingTransaction st u sid note starts raise).1 = .conflict cs) :
    txConflictCheck st sid starts ≠ [] ∧
    cs = (txConflictCheck st sid starts).map (fun b => (b.id, b.startAt)) ∧
    (runBookingTransaction st u sid note starts raise).2 = st := by
  by_cases hc : txConflictCheck st sid starts = []
  · exfalso
    cases raise with
    | true => simp [runBookingTransaction, hc] at h
    | false =>
        rw [runBookingTransaction_success st u sid note starts hc] at h
        cases h
  · rw [runBookingTransaction_conflict st u sid note starts raise hc] at h ⊢
    simp only [CommitResult.conflict.injEq] at h
    exact ⟨hc, h.symm, rfl⟩

section ValidateSteps

variable (dateBase : OsloDate → Int) (st : Store) (sid : String) (date : OsloDate)
variable (hh mm sessions : Nat) (note : Option String) (now : Int)

theorem validate_schemaError
    (hs : schemaAccepts sid date hh mm sessions note = false) :
    validateBookingRequest dateBase st sid date hh mm sessions note now
      = .error .schemaError := by
  unfold validateBookingRequest
  simp [hs]

theorem validate_invalidInput
    (hs : schemaAccepts sid date hh mm sessions note = true)
    (hv : (isValidDate date && isValidTime hh mm) = false) :
    validateBookingRequest dateBase st sid date hh mm sessions note now
      = .error .invalidInput := by
  unfold validateBookingRequest
  simp [hs, hv]

theorem validate_notOnGrid
    (hs : schemaAccepts sid date hh mm sessions note = true)
    (hv : (isValidDate date && isValidTime hh mm) = true)
    (hg : isAlignedToStep (wallMinutes hh mm) = false) :
    validateBookingRequest dateBase st sid date hh mm sessions note now
      = .error .notOnGrid := by
  unfold validateBookingRequest
  simp [hs, hv, hg]

theorem validate_outsideHours (msg : String)
    (hs : schemaAccepts sid date hh mm sessions note = true)
    (hv : (isValidDate date && isValidTime hh mm) = true)
    (hg : isAlignedToStep (wallMinutes hh mm) = true)
    (hb : validateWithinBusinessHours (wallMinutes hh mm) sessions = some msg) :
    validateBookingRequest dateBase st sid date hh mm sessions note now
      = .error (.outsideBusinessHours msg) := by
  unfold validateBookingRequest
  simp [hs, hv, hg, hb]

theorem validate_inThePast
    (hs : schemaAccepts sid date hh mm sessions note = true)
    (hv : (isValidDate date && isValidTime hh mm) = true)
    (hg : isAlignedToStep (wallMinutes hh mm) = true)
    (hb : validateWithinBusinessHours (wallMinutes hh mm) sessions = none)
    (hp : toInstant (dateBase date) (wallMinutes hh mm) < now) :
    validateBookingRequest dateBase st sid date hh mm sessions note now
      = .error .inThePast := by
  unfold validateBookingRequest
  simp [hs, hv, hg, hb, hp]

theorem validate_serviceMissing
    (hs : schemaAccepts sid date hh mm sessions note = true)
    (hv : (isValidDate date && isValidTime hh mm) = true)
    (hg : isAlignedToStep (wallMinutes hh mm) = true)
    (hb : validateWithinBusinessHours (wallMinutes hh mm) sessions = none)
    (hp : ¬ toInstant (dateBase date) (wallMinutes hh mm) < now)
    (hf : findService st sid = none) :
    validateBookingRequest dateBase st sid date hh mm sessions note now
      = .error .serviceUnavailable := by
  unfold validateBookingRequest
  simp [hs, hv, hg, hb, hp, hf]

theorem validate_serviceInactive (sv : Service)
    (hs : schemaAccepts sid date hh mm sessions note = true)
    (hv : (isValidDate date && isValidTime hh mm) = true)
    (hg : isAlignedToStep (wallMinutes hh mm) = true)
    (hb : validateWithinBusinessHours (wallMinutes hh mm) sessions = none)
    (hp : ¬ toInstant (dateBase date) (wallMinutes hh mm) < now)
    (hf : findService st sid = some sv) (ha : sv.isActive = false) :
    validateBookingRequest dateBase st sid date hh mm sessions note now
      = .error .serviceUnavailable := by
  unfold validateBookingRequest
  simp [hs, hv, hg, hb, hp, hf, ha]

theorem validate_wrongDuration (sv : Service)
    (hs : schemaAccepts sid date hh mm sessions note = true)
    (hv : (isValidDate date && isValidTime hh mm) = true)
    (hg : isAlignedToStep (wallMinutes hh mm) = true)
    (hb : validateWithinBusinessHours (wallMinutes hh mm) sessions = none)
    (hp : ¬ toInstant (dateBase date) (wallMinutes hh mm) < now)
    (hf : findService st sid = some sv) (ha : sv.isActive = true)
    (hd : ¬ sv.durationMin = SESSION_MIN) :
    validateBookingRequest dateBase st sid date hh mm sessions note now
      = .error .wrongDuration := by
  unfold validateBookingRequest
  simp [hs, hv, hg, hb, hp, hf, ha, hd]

theorem validate_notCovered (sv : Service)
    (hs : schemaAccepts sid date hh mm sessions note = true)
    (hv : (isValidDate date && isValidTime hh mm) = true)
    (hg : isAlignedToStep (wallMinutes hh mm) = true)
    (hb : validateWithinBusinessHours (wallMinutes hh mm) sessions = none)
    (hp : ¬ toInstant (dateBase date) (wallMinutes hh mm) < now)
    (hf : findService st sid = some sv) (ha : sv.isActive = true)
    (hd : sv.durationMin = SESSION_MIN)
    (hcov : ((buildSessionStartsUtc (toInstant (dateBase date) (wallMinutes hh mm)) sessions).any
      (fun s0 => !(isSessionCoveredBySlots s0 (s0 + SESSION_MIN) (st.slots.filter (fun s =>
        s.serviceId == sid
          && decide (s.startAt < toInstant (dateBase date) (wallMinutes hh mm)
              + STEP_MIN * ((sessions : Int) - 1) + SESSION_MIN)
          && decide (toInstant (dateBase date) (wallMinutes hh mm) < s.endAt)))))) = true) :
    validateBookingRequest dateBase st sid date hh mm sessions note now
      = .error .notWithinAvailability := by
  unfold validateBookingRequest
  simp only [hs, hv, hg, hb, hp, hf, ha, hd, Bool.not_true, Bool.not_false,
    if_false, if_true, beq_self_eq_true, if_neg, ite_false, ite_true]
  simp [hcov]

theorem validate_ok (sv : Service)
    (hs : schemaAccepts sid date hh mm sessions note = true)
    (hv : (isValidDate date && isValidTime hh mm) = true)
    (hg : isAlignedToStep (wallMinutes hh mm) = true)
    (hb : validateWithinBusinessHours (wallMinutes hh mm) sessions = none)
    (hp : ¬ toInstant (dateBase date) (wallMinutes hh mm) < now)
    (hf : findService st sid = some sv) (ha : sv.isActive = true)
    (hd : sv.durationMin = SESSION_MIN)
    (hcov : ((buildSessionStartsUtc (toInstant (dateBase date) (wallMinutes hh mm)) sessions).any
      (fun s0 => !(isSessionCoveredBySlots s0 (s0 + SESSION_MIN) (st.slots.filter (fun s =>
        s.serviceId == sid
          && decide (s.startAt < toInstant (dateBase date) (wallMinutes hh mm)
              + STEP_MIN * ((sessions : Int) - 1) + SESSION_MIN)
          && decide (toInstant (dateBase date) (wallMinutes hh mm) < s.endAt)))))) = false) :
    validateBookingRequest dateBase st sid date hh mm sessions note now
      = .ok (buildSessionStartsUtc (toInstant (dateBase date) (wallMinutes hh mm)) sessions) := by
  unfold validateBookingRequest
  simp [hs, hv, hg, hb, hp, hf, ha, hd, hcov]

end ValidateSteps

theorem exStore_avail :
    getAvailability exDateBase exStore "singing-15" exDate = .ok exAvailTimes := by
  simp [getAvailability, availWalk, availCandidateOk, fetchDaySlots, fetchBookedStarts,
    exStore, exSlot, exService, exDateBase, findService, toInstant, exAvailTimes,
    DAY_START_MIN, DAY_END_MIN, SESSION_MIN, STEP_MIN, BUFFER_MIN]

/-! ## Claim theorems -/

/-- **C4** (confirmed): for every local start time `m` (minutes) and every
`sessionCount ≥ 1`, `validateWithinBusinessHours` succeeds iff
`m ≥ DAY_START (08:00)` and `m + (sessionCount-1)*20 + 15 ≤ DAY_END
(15:00)`; a batch ending exactly at 15:00 is accepted because the closing
check uses strict `>`. -/
theorem fitsBusinessHours_iff (m : Int) (sessions : Nat) (h1 : 1 ≤ sessions) :
    validateWithinBusinessHours m sessions = none ↔
      (DAY_START_MIN ≤ m ∧ m + ((sessions : Int) - 1) * 20 + 15 ≤ DAY_END_MIN) := by
  unfold validateWithinBusinessHours
  simp only [STEP_MIN, SESSION_MIN, BUFFER_MIN, DAY_START_MIN, DAY_END_MIN]
  split_ifs with ha hb
  · constructor
    · intro hx; cases hx
    · intro hx; omega
  · constructor
    · intro hx; cases hx
    · intro hx; omega
  · constructor
    · intro _; omega
    · intro _; rfl

/-- Witness for C4: a single session starting 14:45 (885 minutes) ends
exactly at 15:00 and is accepted. -/
theorem fitsBusinessHours_iff_witness :
    validateWithinBusinessHours 885 1 = none :=
  (fitsBusinessHours_iff 885 1 (by decide)).mpr (by decide)

/-- **C3** (confirmed): a successful availability response is exactly the
20-minute grid of `[DAY_START, DAY_END)` filtered by the spec's
condition (some fetched window contains the candidate session, and the
candidate start instant is not booked), ascending and duplicate-free. -/
theorem availability_exact (dateBase : OsloDate → Int) (st : Store) (sid : String)
    (date : OsloDate) (ts : List Int)
    (hok : getAvailability dateBase st sid date = .ok ts) :
    ts = ((List.range 21).map (fun (k : Nat) => DAY_START_MIN + STEP_MIN * (k : Int))).filter
        (fun t => decide (specAvailable st sid (dateBase date) t))
      ∧ List.Sorted (· < ·) ts ∧ ts.Nodup := by
  obtain ⟨-, sv, -, -, -, hts⟩ := getAvailability_ok_inv dateBase st sid date ts hok
  have hgrid : gridFrom DAY_START_MIN =
      (List.range 21).map (fun (k : Nat) => DAY_START_MIN + STEP_MIN * (k : Int)) := by
    rw [gridFrom_start]
    decide
  have hcand : ∀ t ∈ gridFrom DAY_START_MIN,
      availCandidateOk st sid (dateBase date) t
        = decide (specAvailable st sid (dateBase date) t) := by
    intro t _
    by_cases hspec : specAvailable st sid (dateBase date) t
    · simp [hspec, (availCandidateOk_iff st sid (dateBase date) t).mpr hspec]
    · simp only [hspec, decide_False]
      rw [← Bool.not_eq_true]
      intro hx
      exact hspec ((availCandidateOk_iff st sid (dateBase date) t).mp hx)
  have hsorted : List.Sorted (· < ·) ts := by
    rw [hts]
    exact List.Pairwise.sublist (List.filter_sublist _)
      (gridFrom_sorted (DAY_END_MIN - DAY_START_MIN).toNat DAY_START_MIN le_rfl)
  refine ⟨?_, hsorted, hsorted.nodup⟩
  rw [hts, List.filter_congr hcand, hgrid]

/-- Witness for C3 at the seeded store. -/
theorem availability_exact_witness :
    exAvailTimes = ((List.range 21).map (fun (k : Nat) => DAY_START_MIN + STEP_MIN * (k : Int))).filter
        (fun t => decide (specAvailable exStore "singing-15" (exDateBase exDate) t))
      ∧ List.Sorted (· < ·) exAvailTimes ∧ exAvailTimes.Nodup :=
  availability_exact exDateBase exStore "singing-15" exDate exAvailTimes exStore_avail

/-- What membership in a successful availability response yields. -/
theorem avail_mem_inv (dateBase : OsloDate → Int) (st : Store) (sid : String)
    (date : OsloDate) (ts : List Int) (t : Int)
    (hok : getAvailability dateBase st sid date = .ok ts) (ht : t ∈ ts) :
    ¬ sid = ""
    ∧ (∃ sv, findService st sid = some sv ∧ sv.isActive = true
        ∧ sv.durationMin = SESSION_MIN)
    ∧ (∃ k : Nat, k < 21 ∧ t = DAY_START_MIN + STEP_MIN * (k : Int))
    ∧ specAvailable st sid (dateBase date) t := by
  obtain ⟨hsid, sv, hf, ha, hd, hts⟩ := getAvailability_ok_inv dateBase st sid date ts hok
  rw [hts, List.mem_filter] at ht
  obtain ⟨hmem, hcand⟩ := ht
  refine ⟨hsid, ⟨sv, hf, ha, hd⟩, ?_, (availCandidateOk_iff st sid (dateBase date) t).mp hcand⟩
  rw [gridFrom_start, List.mem_map] at hmem
  obtain ⟨k, hk, rfl⟩ := hmem
  rw [List.mem_range] at hk
  refine ⟨k, hk, ?_⟩
  simp [DAY_START_MIN, STEP_MIN, SESSION_MIN, BUFFER_MIN]

theorem wallMinutes_split (t : Int) (h0 : 0 ≤ t) (h1 : t ≤ 1439) :
    wallMinutes (t.toNat / 60) (t.toNat % 60) = t := by
  unfold wallMinutes
  omega

/-- **C10** (confirmed): every time returned by the availability route is
grid-aligned and fits business hours for one session, but the
availability computation never consults the clock: whatever `now` is, if
the slot's instant is before `now`, `POST /bookings` rejects it with
`inThePast` while it is still listed. -/
theorem availability_ignores_clock (dateBase : OsloDate → Int) (st : Store)
    (sid userId : String) (date : OsloDate) (ts : List Int) (t : Int)
    (note : Option String)
    (hok : getAvailability dateBase st sid date = .ok ts) (ht : t ∈ ts)
    (hvd : isValidDate date = true)
    (hy : date.y ≤ 9999) (hmo : date.m ≤ 99) (hdy : date.d ≤ 99)
    (hnote : (note.getD "").length ≤ 500) :
    isAlignedToStep t = true ∧ validateWithinBusinessHours t 1 = none ∧
    ∀ now raise, toInstant (dateBase date) t < now →
      commitBooking dateBase st userId sid date (t.toNat / 60) (t.toNat % 60) 1 note now raise
        = (.inThePast, st) := by
  obtain ⟨hsid, ⟨sv, hf, ha, hd⟩, ⟨k, hk, rfl⟩, hspec⟩ :=
    avail_mem_inv dateBase st sid date ts t hok ht
  set t := DAY_START_MIN + STEP_MIN * (k : Int) with ht_def
  have htval : (480 : Int) ≤ t ∧ t ≤ 880 := by
    simp only [ht_def, DAY_START_MIN, STEP_MIN, SESSION_MIN, BUFFER_MIN]
    omega
  have haligned : isAlignedToStep t = true := by
    simp only [isAlignedToStep, ht_def, DAY_START_MIN, STEP_MIN, SESSION_MIN, BUFFER_MIN,
      Bool.and_eq_true, decide_eq_true_eq]
    omega
  have hbusiness : validateWithinBusinessHours t 1 = none := by
    unfold validateWithinBusinessHours
    simp only [DAY_START_MIN, DAY_END_MIN, STEP_MIN, SESSION_MIN, BUFFER_MIN]
    split_ifs with h1 h2
    · exfalso; omega
    · exfalso; push_cast at h2; omega
    · rfl
  have hw : wallMinutes (t.toNat / 60) (t.toNat % 60) = t :=
    wallMinutes_split t (by omega) (by omega)
  refine ⟨haligned, hbusiness, ?_⟩
  intro now raise hpast
  apply commitBooking_of_error
  apply validate_inThePast
  · simp only [schemaAccepts, Bool.and_eq_true, decide_eq_true_eq, Bool.not_eq_true',
      beq_eq_false_iff_ne, ne_eq]
    refine ⟨⟨⟨⟨⟨⟨⟨⟨hsid, hy⟩, hmo⟩, hdy⟩, by omega⟩, by omega⟩, by omega⟩, by omega⟩, hnote⟩
  · simp only [Bool.and_eq_true]
    refine ⟨hvd, ?_⟩
    simp only [isValidTime, Bool.and_eq_true, decide_eq_true_eq]
    omega
  · rw [hw]; exact haligned
  · rw [hw]; exact hbusiness
  · rw [hw]; exact hpast

/-- **C2** (corrected): a time returned by the availability route, booked
immediately for one session on the same service and date, succeeds and
inserts exactly one booking at the matching instant — *provided* the
slot's instant is not strictly before the current instant (the route
rejects past slots that availability still lists). -/
theorem commit_roundtrip (dateBase : OsloDate → Int) (st : Store)
    (sid userId : String) (date : OsloDate) (ts : List Int) (t : Int)
    (note : Option String) (now : Int)
    (hok : getAvailability dateBase st sid date = .ok ts) (ht : t ∈ ts)
    (hvd : isValidDate date = true)
    (hy : date.y ≤ 9999) (hmo : date.m ≤ 99) (hdy : date.d ≤ 99)
    (hnote : (note.getD "").length ≤ 500)
    (hnow : ¬ toInstant (dateBase date) t < now) :
    ∃ bs, commitBooking dateBase st userId sid date (t.toNat / 60) (t.toNat % 60)
        1 note now false
      = (.booked 1 bs,
         { st with
             bookings := st.bookings ++
               [⟨st.nextId, userId, sid, toInstant (dateBase date) t,
                 toInstant (dateBase date) t + SESSION_MIN,
                 BookingStatus.CONFIRMED, note⟩]
             nextId := st.nextId + 1 }) := by
  obtain ⟨hsid, ⟨sv, hf, ha, hd⟩, ⟨k, hk, ht_def⟩, hspec⟩ :=
    avail_mem_inv dateBase st sid date ts t hok ht
  have htval : (480 : Int) ≤ t ∧ t ≤ 880 := by
    simp only [ht_def, DAY_START_MIN, STEP_MIN, SESSION_MIN, BUFFER_MIN]
    omega
  have haligned : isAlignedToStep t = true := by
    simp only [isAlignedToStep, ht_def, DAY_START_MIN, STEP_MIN, SESSION_MIN, BUFFER_MIN,
      Bool.and_eq_true, decide_eq_true_eq]
    omega
  have hbusiness : validateWithinBusinessHours t 1 = none := by
    unfold validateWithinBusinessHours
    simp only [DAY_START_MIN, DAY_END_MIN, STEP_MIN, SESSION_MIN, BUFFER_MIN]
    split_ifs with h1 h2
    · exfalso; omega
    · exfalso; push_cast at h2; omega
    · rfl
  have hw : wallMinutes (t.toNat / 60) (t.toNat % 60) = t :=
    wallMinutes_split t (by omega) (by omega)
  set inst := toInstant (dateBase date) t with hinst
  have hstarts : buildSessionStartsUtc inst 1 = [inst] := by
    unfold buildSessionStartsUtc
    rw [show List.range 1 = [0] from rfl]
    simp
  -- coverage of the single session by the commit-side candidate slots
  obtain ⟨s, hsmem, hs1, hs2⟩ := hspec.1
  rw [← hinst] at hs1 hs2
  have hsmem' := hsmem
  unfold fetchDaySlots at hsmem'
  rw [List.mem_filter] at hsmem'
  obtain ⟨hsS, hsCond⟩ := hsmem'
  simp only [Bool.and_eq_true, beq_iff_eq, decide_eq_true_eq] at hsCond
  have hcov : ((buildSessionStartsUtc inst 1).any
      (fun s0 => !(isSessionCoveredBySlots s0 (s0 + SESSION_MIN) (st.slots.filter (fun s =>
        s.serviceId == sid
          && decide (s.startAt < inst + STEP_MIN * ((1 : Nat) - 1 : Int) + SESSION_MIN)
          && decide (inst < s.endAt)))))) = false := by
    rw [hstarts]
    have hc1 : isSessionCoveredBySlots inst (inst + SESSION_MIN) (st.slots.filter (fun s =>
        s.serviceId == sid
          && decide (s.startAt < inst + STEP_MIN * ((1 : Nat) - 1 : Int) + SESSION_MIN)
          && decide (inst < s.endAt))) = true := by
      simp only [isSessionCoveredBySlots, List.any_eq_true, Bool.and_eq_true, decide_eq_true_eq]
      refine ⟨s, ?_, hs1, hs2⟩
      rw [List.mem_filter]
      refine ⟨hsS, ?_⟩
      simp only [Bool.and_eq_true, beq_iff_eq, decide_eq_true_eq]
      refine ⟨⟨hsCond.1.1, ?_⟩, ?_⟩
      · push_cast
        simp only [SESSION_MIN, STEP_MIN, BUFFER_MIN] at hs1 ⊢
        omega
      · simp only [SESSION_MIN] at hs2 ⊢
        omega
    simp only [List.any_cons, List.any_nil, Bool.or_false]
    rw [hc1]
    rfl
  -- no conflicting non-cancelled booking at the instant
  have hconf : txConflictCheck st sid [inst] = [] := by
    unfold txConflictCheck
    rw [List.filter_eq_nil_iff]
    intro b hb hp
    simp only [Bool.and_eq_true, beq_iff_eq, Bool.not_eq_true', beq_eq_false_iff_ne, ne_eq,
      List.contains_cons, List.contains_nil, Bool.or_false] at hp
    obtain ⟨⟨hbs, hbc⟩, hbstart⟩ := hp
    apply hspec.2
    unfold fetchBookedStarts
    rw [List.mem_map]
    refine ⟨b, ⟨?_, hbstart⟩⟩
    rw [List.mem_filter]
    refine ⟨hb, ?_⟩
    simp only [Bool.and_eq_true, beq_iff_eq, decide_eq_true_eq, Bool.not_eq_true',
      beq_eq_false_iff_ne, ne_eq]
    rw [hbstart, hinst]
    simp only [toInstant, DAY_START_MIN, DAY_END_MIN]
    exact ⟨⟨⟨hbs, hbc⟩, by omega⟩, by omega⟩
  -- assemble
  have hvalid := validate_ok dateBase st sid date (t.toNat / 60) (t.toNat % 60) 1 note now sv
    (by simp only [schemaAccepts, Bool.and_eq_true, decide_eq_true_eq, Bool.not_eq_true',
          beq_eq_false_iff_ne, ne_eq]
        refine ⟨⟨⟨⟨⟨⟨⟨⟨hsid, hy⟩, hmo⟩, hdy⟩, by omega⟩, by omega⟩, by omega⟩, by omega⟩, hnote⟩)
    (by simp only [Bool.and_eq_true]
        refine ⟨hvd, ?_⟩
        simp only [isValidTime, Bool.and_eq_true, decide_eq_true_eq]
        omega)
    (by rw [hw]; exact haligned)
    (by rw [hw]; exact hbusiness)
    (by rw [hw]; exact hnow)
    hf ha hd
    (by rw [hw]; exact hcov)
  refine ⟨bookedViews (txInsert st userId sid note [inst]) userId sid [inst], ?_⟩
  have hvalid2 : validateBookingRequest dateBase st sid date (t.toNat / 60) (t.toNat % 60)
      1 note now = .ok [inst] := by
    rw [hvalid, hw]
    rw [show toInstant (dateBase date) t = inst from hinst.symm, hstarts]
  rw [commitBooking_of_ok dateBase st userId sid date (t.toNat / 60) (t.toNat % 60)
    1 note now false [inst] hvalid2]
  rw [runBookingTransaction_success st userId sid note [inst] hconf]
  have hrows : newBookingRows userId sid note st.nextId [inst] =
      [⟨st.nextId, userId, sid, inst, inst + SESSION_MIN, BookingStatus.CONFIRMED, note⟩] := by
    simp [newBookingRows, List.enum]
  rw [Prod.mk.injEq]
  constructor
  · rw [hrows]
    rfl
  · unfold txInsert
    rw [hrows]
    rfl

theorem exStoreCancelled_avail :
    getAvailability exDateBase exStoreCancelled "singing-15" exDate = .ok exAvailTimes := by
  simp [getAvailability, availWalk, availCandidateOk, fetchDaySlots, fetchBookedStarts,
    exStoreCancelled, exCancelled, exSlot, exService, exDateBase, findService, toInstant,
    exAvailTimes, DAY_START_MIN, DAY_END_MIN, SESSION_MIN, STEP_MIN, BUFFER_MIN]

/-- Counterexample to C2 as stated: (a) the availability route lists
08:00 of `exDate` even when `now` is far past it, and the immediate
commit is rejected with `inThePast` instead of succeeding; (b) with a
pre-existing cancelled booking of the same user at the same instant, the
commit succeeds but its response lists two bookings, not exactly one. -/
theorem commit_roundtrip_cex :
    ((480 : Int) ∈ exAvailTimes
      ∧ getAvailability exDateBase exStore "singing-15" exDate = .ok exAvailTimes
      ∧ (commitBooking exDateBase exStore "u1" "singing-15" exDate 8 0 1 none 10000 false).1
          = .inThePast)
    ∧ (getAvailability exDateBase exStoreCancelled "singing-15" exDate = .ok exAvailTimes
      ∧ (commitBooking exDateBase exStoreCancelled "u1" "singing-15" exDate 8 0 1 none 0 false).1
          = .booked 1 [⟨5, 60, 75, BookingStatus.CANCELLED⟩,
                       ⟨6, 60, 75, BookingStatus.CONFIRMED⟩]) :=
  ⟨⟨by decide, exStore_avail, by decide⟩, exStoreCancelled_avail, by decide⟩

/-- Witness for the amended C2 at the seeded store. -/
theorem commit_roundtrip_witness :
    ∃ bs, commitBooking exDateBase exStore "u1" "singing-15" exDate
        ((480 : Int).toNat / 60) ((480 : Int).toNat % 60) 1 none 60 false
      = (.booked 1 bs,
         { exStore with
             bookings := exStore.bookings ++
               [⟨exStore.nextId, "u1", "singing-15", toInstant (exDateBase exDate) 480,
                 toInstant (exDateBase exDate) 480 + SESSION_MIN,
                 BookingStatus.CONFIRMED, none⟩]
             nextId := exStore.nextId + 1 }) :=
  commit_roundtrip exDateBase exStore "singing-15" "u1" exDate exAvailTimes 480 none 60
    exStore_avail (by decide) (by decide) (by decide) (by decide) (by decide) (by decide)
    (by decide)

/-- Witness for C10: 08:00 on the demo date, with `now` far in the future. -/
theorem availability_ignores_clock_witness :
    isAlignedToStep 480 = true ∧ validateWithinBusinessHours 480 1 = none ∧
    commitBooking exDateBase exStore "u1" "singing-15" exDate
        ((480 : Int).toNat / 60) ((480 : Int).toNat % 60) 1 none 10000 false
      = (.inThePast, exStore) := by
  obtain ⟨h1, h2, h3⟩ := availability_ignores_clock exDateBase exStore "singing-15" "u1"
    exDate exAvailTimes 480 none exStore_avail (by decide) (by decide) (by decide)
    (by decide) (by decide) (by decide)
  exact ⟨h1, h2, h3 10000 false (by decide)⟩

set_option maxRecDepth 8000 in
/-- The validation pipeline never produces the success constructors as
errors. -/
theorem validate_error_not_booked (dateBase : OsloDate → Int) (st : Store)
    (sid : String) (date : OsloDate) (hh mm sessions : Nat) (note : Option String)
    (now : Int) (e : CommitResult)
    (h : validateBookingRequest dateBase st sid date hh mm sessions note now = .error e) :
    (∀ n bs, e ≠ .booked n bs) ∧ (∀ cs, e ≠ .conflict cs) ∧ e ≠ .serverError := by
  unfold validateBookingRequest at h
  simp only [] at h
  repeat' split at h
  all_goals cases h
  all_goals exact ⟨fun n bs hx => (nomatch hx), fun cs hx => (nomatch hx), fun hx => (nomatch hx)⟩

set_option maxRecDepth 8000 in
/-- The validation pipeline's success value is the computed instant set. -/
theorem validate_ok_starts (dateBase : OsloDate → Int) (st : Store)
    (sid : String) (date : OsloDate) (hh mm sessions : Nat) (note : Option String)
    (now : Int) (starts : List Int)
    (h : validateBookingRequest dateBase st sid date hh mm sessions note now = .ok starts) :
    starts = buildSessionStartsUtc (toInstant (dateBase date) (wallMinutes hh mm)) sessions := by
  unfold validateBookingRequest at h
  simp only [] at h
  repeat' split at h
  all_goals cases h
  all_goals rfl

theorem buildSessionStartsUtc_length (inst : Int) (n : Nat) :
    (buildSessionStartsUtc inst n).length = n := by
  simp [buildSessionStartsUtc]

theorem runBookingTransaction_raise (st : Store) (u sid : String)
    (note : Option String) (starts : List Int)
    (h : txConflictCheck st sid starts = []) :
    runBookingTransaction st u sid note starts true = (.serverError, st) := by
  simp [runBookingTransaction, h]

/-- **C6** (confirmed): `commitBooking` is atomic over its sessions: either
the store is unchanged (and nothing was booked), or it gained exactly one
row per computed session instant; a `conflict` always leaves the store
unchanged. -/
theorem commit_atomic (dateBase : OsloDate → Int) (st : Store)
    (userId sid : String) (date : OsloDate) (hh mm sessions : Nat)
    (note : Option String) (now : Int) (raise : Bool) :
    (((commitBooking dateBase st userId sid date hh mm sessions note now raise).2 = st
        ∧ ∀ n bs, (commitBooking dateBase st userId sid date hh mm sessions note now raise).1
            ≠ .booked n bs)
      ∨ ((commitBooking dateBase st userId sid date hh mm sessions note now raise).2.bookings
            = st.bookings ++ newBookingRows userId sid note st.nextId
                (buildSessionStartsUtc (toInstant (dateBase date) (wallMinutes hh mm)) sessions)
          ∧ (newBookingRows userId sid note st.nextId
                (buildSessionStartsUtc (toInstant (dateBase date) (wallMinutes hh mm)) sessions)).map
              (fun b => b.startAt)
            = buildSessionStartsUtc (toInstant (dateBase date) (wallMinutes hh mm)) sessions
          ∧ ∃ bs, (commitBooking dateBase st userId sid date hh mm sessions note now raise).1
              = .booked sessions bs))
    ∧ ∀ cs, (commitBooking dateBase st userId sid date hh mm sessions note now raise).1
          = .conflict cs →
        (commitBooking dateBase st userId sid date hh mm sessions note now raise).2 = st := by
  cases hval : validateBookingRequest dateBase st sid date hh mm sessions note now with
  | error e =>
      rw [commitBooking_of_error dateBase st userId sid date hh mm sessions note now raise e hval]
      exact ⟨Or.inl ⟨rfl, (validate_error_not_booked dateBase st sid date hh mm sessions
        note now e hval).1⟩, fun cs _ => rfl⟩
  | ok starts =>
      rw [commitBooking_of_ok dateBase st userId sid date hh mm sessions note now raise
        starts hval]
      have hstarts := validate_ok_starts dateBase st sid date hh mm sessions note now starts hval
      subst hstarts
      by_cases hc : txConflictCheck st sid
          (buildSessionStartsUtc (toInstant (dateBase date) (wallMinutes hh mm)) sessions) = []
      · cases raise with
        | true =>
            rw [runBookingTransaction_raise st userId sid note _ hc]
            exact ⟨Or.inl ⟨rfl, fun n bs hx => by cases hx⟩, fun cs hx => by cases hx⟩
        | false =>
            rw [runBookingTransaction_success st userId sid note _ hc]
            refine ⟨Or.inr ⟨rfl, newBookingRows_startAt userId sid note st.nextId _, ?_⟩,
              fun cs hx => by cases hx⟩
            refine ⟨bookedViews (txInsert st userId sid note
              (buildSessionStartsUtc (toInstant (dateBase date) (wallMinutes hh mm)) sessions))
              userId sid
              (buildSessionStartsUtc (toInstant (dateBase date) (wallMinutes hh mm)) sessions), ?_⟩
            show CommitResult.booked (newBookingRows userId sid note st.nextId
                (buildSessionStartsUtc (toInstant (dateBase date) (wallMinutes hh mm)) sessions)).length
                _ = _
            rw [newBookingRows_length, buildSessionStartsUtc_length]
      · rw [runBookingTransaction_conflict st userId sid note _ raise hc]
        exact ⟨Or.inl ⟨rfl, fun n bs hx => by cases hx⟩, fun cs _ => rfl⟩

/-- **C7** (corrected): on success the store gains exactly one CONFIRMED
row per computed session instant (same user, service and note,
`end = start + SESSION_MIN`), and the response is the ascending list of
the *user's* bookings for that service at those instants — which equals
the `sessionCount` new rows only when the user had no pre-existing
bookings (of any status) at those instants. -/
theorem commit_success_shape (dateBase : OsloDate → Int) (st : Store)
    (userId sid : String) (date : OsloDate) (hh mm sessions : Nat)
    (note : Option String) (now : Int) (raise : Bool) (n : Nat)
    (bs : List BookingView)
    (h : (commitBooking dateBase st userId sid date hh mm sessions note now raise).1
      = .booked n bs) :
    (commitBooking dateBase st userId sid date hh mm sessions note now raise).2.bookings
        = st.bookings ++ newBookingRows userId sid note st.nextId
            (buildSessionStartsUtc (toInstant (dateBase date) (wallMinutes hh mm)) sessions)
    ∧ n = sessions
    ∧ (newBookingRows userId sid note st.nextId
          (buildSessionStartsUtc (toInstant (dateBase date) (wallMinutes hh mm)) sessions)).map
        (fun b => b.startAt)
        = buildSessionStartsUtc (toInstant (dateBase date) (wallMinutes hh mm)) sessions
    ∧ (∀ b ∈ newBookingRows userId sid note st.nextId
          (buildSessionStartsUtc (toInstant (dateBase date) (wallMinutes hh mm)) sessions),
        b.userId = userId ∧ b.serviceId = sid ∧ b.note = note
          ∧ b.status = BookingStatus.CONFIRMED ∧ b.endAt = b.startAt + SESSION_MIN)
    ∧ bs = bookedViews (txInsert st userId sid note
          (buildSessionStartsUtc (toInstant (dateBase date) (wallMinutes hh mm)) sessions))
        userId sid
        (buildSessionStartsUtc (toInstant (dateBase date) (wallMinutes hh mm)) sessions)
    ∧ ((∀ b ∈ st.bookings, ¬(b.userId = userId ∧ b.serviceId = sid
          ∧ b.startAt ∈ buildSessionStartsUtc (toInstant (dateBase date) (wallMinutes hh mm))
              sessions)) →
        bs = (newBookingRows userId sid note st.nextId
            (buildSessionStartsUtc (toInstant (dateBase date) (wallMinutes hh mm)) sessions)).map
          (fun b => ⟨b.id, b.startAt, b.endAt, b.status⟩)) := by
  cases hval : validateBookingRequest dateBase st sid date hh mm sessions note now with
  | error e =>
      rw [commitBooking_of_error dateBase st userId sid date hh mm sessions note now raise
        e hval] at h
      exact absurd h ((validate_error_not_booked dateBase st sid date hh mm sessions
        note now e hval).1 n bs)
  | ok starts =>
      have hstarts := validate_ok_starts dateBase st sid date hh mm sessions note now starts hval
      subst hstarts
      rw [commitBooking_of_ok dateBase st userId sid date hh mm sessions note now raise
        _ hval] at h ⊢
      obtain ⟨-, hc, hn, hst2, hbs⟩ :=
        runBookingTransaction_booked_inv st userId sid note _ raise n bs h
      refine ⟨by rw [hst2]; rfl,
        by rw [hn, buildSessionStartsUtc_length],
        newBookingRows_startAt userId sid note st.nextId _,
        fun b hb => ?_, hbs, fun hnone => ?_⟩
      · obtain ⟨h1, h2, h3, h4, h5, -⟩ := newBookingRows_mem userId sid note st.nextId _ b hb
        exact ⟨h1, h2, h3, h4, h5⟩
      · rw [hbs]
        unfold bookedViews txInsert
        congr 1
        rw [List.filter_append]
        have hfilter1 : (st.bookings.filter (fun b =>
            b.userId == userId && b.serviceId == sid
              && (buildSessionStartsUtc (toInstant (dateBase date) (wallMinutes hh mm))
                  sessions).contains b.startAt)) = [] := by
          rw [List.filter_eq_nil_iff]
          intro b hb hp
          simp only [Bool.and_eq_true, beq_iff_eq] at hp
          exact hnone b hb ⟨hp.1.1, hp.1.2, List.elem_iff.mp hp.2⟩
        have hfilter2 : ((newBookingRows userId sid note st.nextId
            (buildSessionStartsUtc (toInstant (dateBase date) (wallMinutes hh mm))
              sessions)).filter (fun b =>
            b.userId == userId && b.serviceId == sid
              && (buildSessionStartsUtc (toInstant (dateBase date) (wallMinutes hh mm))
                  sessions).contains b.startAt))
            = newBookingRows userId sid note st.nextId
                (buildSessionStartsUtc (toInstant (dateBase date) (wallMinutes hh mm)) sessions) := by
          rw [List.filter_eq_self]
          intro b hb
          obtain ⟨h1, h2, -, -, -, h6⟩ := newBookingRows_mem userId sid note st.nextId _ b hb
          simp only [Bool.and_eq_true, beq_iff_eq]
          exact ⟨⟨h1, h2⟩, List.elem_iff.mpr h6⟩
        rw [hfilter1, hfilter2, List.nil_append]
        exact sortByStart_of_sorted _ (newBookingRows_sorted userId sid note st.nextId _
          (buildSessionStartsUtc_sorted _ _))

/-- Counterexample to C7 as stated: with a pre-existing CANCELLED booking
of the same user at the committed instant, the response lists two rows
(the old cancelled one and the new one), not exactly the one new row. -/
theorem commit_success_shape_cex :
    (commitBooking exDateBase exStoreCancelled "u1" "singing-15" exDate 8 0 1 none 0 false).1
      = .booked 1 [⟨5, 60, 75, BookingStatus.CANCELLED⟩,
                   ⟨6, 60, 75, BookingStatus.CONFIRMED⟩]
    ∧ ([⟨5, 60, 75, BookingStatus.CANCELLED⟩,
        ⟨6, 60, 75, BookingStatus.CONFIRMED⟩] : List BookingView).length ≠ 1 := by
  exact ⟨by decide, by decide⟩

/-- Witness for the amended C7 at the seeded store. -/
theorem commit_success_shape_witness :
    (commitBooking exDateBase exStore "u1" "singing-15" exDate 8 0 1 none 0 false).2.bookings
      = exStore.bookings ++ newBookingRows "u1" "singing-15" none exStore.nextId
          (buildSessionStartsUtc (toInstant (exDateBase exDate) (wallMinutes 8 0)) 1) :=
  (commit_success_shape exDateBase exStore "u1" "singing-15" exDate 8 0 1 none 0 false 1
    [⟨0, 60, 75, BookingStatus.CONFIRMED⟩] (by decide)).1

/-- **C8** (corrected): when the transactional re-check finds existing
non-cancelled bookings at computed instants, the commit aborts without
inserting and returns `conflict` carrying the conflicting bookings'
`(id, startAt)` pairs — the raw stored instants, not their local
times-of-day. -/
theorem commit_conflict_shape (dateBase : OsloDate → Int) (st : Store)
    (userId sid : String) (date : OsloDate) (hh mm sessions : Nat)
    (note : Option String) (now : Int) (raise : Bool)
    (cs : List (Nat × Int))
    (h : (commitBooking dateBase st userId sid date hh mm sessions note now raise).1
      = .conflict cs) :
    (commitBooking dateBase st userId sid date hh mm sessions note now raise).2 = st
    ∧ cs = (txConflictCheck st sid
        (buildSessionStartsUtc (toInstant (dateBase date) (wallMinutes hh mm)) sessions)).map
          (fun b => (b.id, b.startAt))
    ∧ cs ≠ []
    ∧ ∀ p ∈ cs, ∃ b ∈ st.bookings, b.serviceId = sid
        ∧ b.status ≠ BookingStatus.CANCELLED
        ∧ b.startAt ∈ buildSessionStartsUtc (toInstant (dateBase date) (wallMinutes hh mm))
            sessions
        ∧ p = (b.id, b.startAt) := by
  cases hval : validateBookingRequest dateBase st sid date hh mm sessions note now with
  | error e =>
      rw [commitBooking_of_error dateBase st userId sid date hh mm sessions note now raise
        e hval] at h
      exact absurd h ((validate_error_not_booked dateBase st sid date hh mm sessions
        note now e hval).2.1 cs)
  | ok starts =>
      have hstarts := validate_ok_starts dateBase st sid date hh mm sessions note now starts hval
      subst hstarts
      rw [commitBooking_of_ok dateBase st userId sid date hh mm sessions note now raise
        _ hval] at h ⊢
      obtain ⟨hne, hcs, hst⟩ :=
        runBookingTransaction_conflict_inv st userId sid note _ raise cs h
      refine ⟨hst, hcs, ?_, ?_⟩
      · rw [hcs]
        intro hx
        exact hne (List.map_eq_nil.mp hx)
      · intro p hp
        rw [hcs, List.mem_map] at hp
        obtain ⟨b, hbmem, hpb⟩ := hp
        unfold txConflictCheck at hbmem
        rw [List.mem_filter] at hbmem
        obtain ⟨hbst, hcond⟩ := hbmem
        simp only [Bool.and_eq_true, beq_iff_eq, Bool.not_eq_true',
          beq_eq_false_iff_ne, ne_eq] at hcond
        exact ⟨b, hbst, hcond.1.1, hcond.1.2, List.elem_iff.mp hcond.2, hpb.symm⟩

/-- Counterexample to C8 as stated: the conflict payload carries the raw
stored instant (120, rendered as a UTC timestamp by the API), not the
local time-of-day 540 ("09:00") of the claimed slot. -/
theorem commit_conflict_shape_cex :
    (commitBooking exDateBase exStoreConfirmed "u1" "singing-15" exDate 9 0 1 none 0 false).1
      = .conflict [(7, 120)]
    ∧ toInstant (exDateBase exDate) 540 = 120
    ∧ (120 : Int) ≠ 540 := by
  exact ⟨by decide, by decide, by decide⟩

/-- Witness for the amended C8 at a store with a confirmed booking at
09:00. -/
theorem commit_conflict_shape_witness :
    (commitBooking exDateBase exStoreConfirmed "u1" "singing-15" exDate 9 0 1 none 0 false).2
      = exStoreConfirmed
    ∧ [((7 : Nat), (120 : Int))] = (txConflictCheck exStoreConfirmed "singing-15"
        (buildSessionStartsUtc (toInstant (exDateBase exDate) (wallMinutes 9 0)) 1)).map
          (fun b => (b.id, b.startAt))
    ∧ ([((7 : Nat), (120 : Int))] : List (Nat × Int)) ≠ []
    ∧ ∀ p ∈ ([((7 : Nat), (120 : Int))] : List (Nat × Int)),
        ∃ b ∈ exStoreConfirmed.bookings, b.serviceId = "singing-15"
          ∧ b.status ≠ BookingStatus.CANCELLED
          ∧ b.startAt ∈ buildSessionStartsUtc (toInstant (exDateBase exDate) (wallMinutes 9 0)) 1
          ∧ p = (b.id, b.startAt) :=
  commit_conflict_shape exDateBase exStoreConfirmed "u1" "singing-15" exDate 9 0 1 none 0 false
    [(7, 120)] (by decide)

/-- **C5** (corrected): a storage error raised during the insert step (as
a uniqueness violation would be, were one declared) is caught by the
handler's `catch` and surfaced as the *opaque* 500 `Server error` with
the store unchanged — not translated into the `conflict` result shape. -/
theorem commit_insert_error_opaque (dateBase : OsloDate → Int) (st : Store)
    (userId sid : String) (date : OsloDate) (hh mm sessions : Nat)
    (note : Option String) (now : Int)
    (h : ∃ n bs, (commitBooking dateBase st userId sid date hh mm sessions note now false).1
      = .booked n bs) :
    commitBooking dateBase st userId sid date hh mm sessions note now true
      = (.serverError, st)
    ∧ ∀ cs, (CommitResult.serverError : CommitResult) ≠ .conflict cs := by
  obtain ⟨n, bs, h⟩ := h
  refine ⟨?_, fun cs hx => (nomatch hx)⟩
  cases hval : validateBookingRequest dateBase st sid date hh mm sessions note now with
  | error e =>
      rw [commitBooking_of_error dateBase st userId sid date hh mm sessions note now false
        e hval] at h
      exact absurd h ((validate_error_not_booked dateBase st sid date hh mm sessions
        note now e hval).1 n bs)
  | ok starts =>
      rw [commitBooking_of_ok dateBase st userId sid date hh mm sessions note now false
        starts hval] at h
      rw [commitBooking_of_ok dateBase st userId sid date hh mm sessions note now true
        starts hval]
      obtain ⟨-, hc, -, -, -⟩ :=
        runBookingTransaction_booked_inv st userId sid note starts false n bs h
      exact runBookingTransaction_raise st userId sid note starts hc

/-- Counterexample to C5 as stated: at a commit whose insert raises, the
handler returns the opaque 500, which is not the `conflict` shape; and
the migration declares no uniqueness constraint on `Booking` at all. -/
theorem commit_insert_error_cex :
    commitBooking exDateBase exStore "u1" "singing-15" exDate 8 0 1 none 0 true
      = (.serverError, exStore)
    ∧ (∀ cs, (CommitResult.serverError : CommitResult) ≠ .conflict cs)
    ∧ ¬ ∃ ix ∈ migrationIndexes, ix.table = "Booking" ∧ ix.unique = true :=
  ⟨by decide, fun cs hx => (nomatch hx), by decide⟩

/-- Witness for the amended C5 at the seeded store. -/
theorem commit_insert_error_opaque_witness :
    commitBooking exDateBase exStore "u1" "singing-15" exDate 8 0 1 none 0 true
      = (.serverError, exStore)
    ∧ ∀ cs, (CommitResult.serverError : CommitResult) ≠ .conflict cs :=
  commit_insert_error_opaque exDateBase exStore "u1" "singing-15" exDate 8 0 1 none 0
    ⟨1, [⟨0, 60, 75, BookingStatus.CONFIRMED⟩], by decide⟩

/-- **C9** (confirmed): for schema-valid input the validation pipeline
short-circuits in source order — invalid date-time, then grid alignment,
then business hours (whose two failure reasons carry distinguishable
messages), then the past check, then service existence/activity/duration,
then availability coverage — so the error returned is always the first
failing step's error, with the store untouched. -/
theorem pipeline_order (dateBase : OsloDate → Int) (st : Store)
    (userId sid : String) (date : OsloDate) (hh mm sessions : Nat)
    (note : Option String) (now : Int) (raise : Bool)
    (hschema : schemaAccepts sid date hh mm sessions note = true) :
    (failsParse date hh mm →
      commitBooking dateBase st userId sid date hh mm sessions note now raise
        = (.invalidInput, st))
    ∧ (¬ failsParse date hh mm → failsGrid hh mm →
      commitBooking dateBase st userId sid date hh mm sessions note now raise
        = (.notOnGrid, st))
    ∧ (¬ failsParse date hh mm → ¬ failsGrid hh mm → failsHours hh mm sessions →
      ∃ msg, commitBooking dateBase st userId sid date hh mm sessions note now raise
        = (.outsideBusinessHours msg, st))
    ∧ (¬ failsParse date hh mm → ¬ failsGrid hh mm → ¬ failsHours hh mm sessions →
        failsPast dateBase date hh mm now →
      commitBooking dateBase st userId sid date hh mm sessions note now raise
        = (.inThePast, st))
    ∧ (¬ failsParse date hh mm → ¬ failsGrid hh mm → ¬ failsHours hh mm sessions →
        ¬ failsPast dateBase date hh mm now → failsService st sid →
      ((commitBooking dateBase st userId sid date hh mm sessions note now raise).1
          = .serviceUnavailable
        ∨ (commitBooking dateBase st userId sid date hh mm sessions note now raise).1
          = .wrongDuration)
      ∧ (commitBooking dateBase st userId sid date hh mm sessions note now raise).2 = st)
    ∧ (¬ failsParse date hh mm → ¬ failsGrid hh mm → ¬ failsHours hh mm sessions →
        ¬ failsPast dateBase date hh mm now → ¬ failsService st sid →
        failsCoverage dateBase st sid date hh mm sessions →
      commitBooking dateBase st userId sid date hh mm sessions note now raise
        = (.notWithinAvailability, st))
    ∧ (∀ m2 n2, m2 < DAY_START_MIN → validateWithinBusinessHours m2 n2
        = some "Start time is before opening hours (08:00).")
    ∧ (∀ m2 n2, ¬ m2 < DAY_START_MIN → validateWithinBusinessHours m2 n2 ≠ none →
        validateWithinBusinessHours m2 n2
        = some "Selected sessions exceed opening hours (must end by 15:00 Oslo time).")
    ∧ ("Start time is before opening hours (08:00)." : String)
        ≠ "Selected sessions exceed opening hours (must end by 15:00 Oslo time)." := by
  refine ⟨?_, ?_, ?_, ?_, ?_, ?_, ?_, ?_, by decide⟩
  · intro hp
    have hv : (isValidDate date && isValidTime hh mm) = false := by
      rw [Bool.and_eq_false_iff]
      unfold failsParse at hp
      by_cases h1 : isValidDate date = true
      · right
        rw [not_and] at hp
        exact Bool.eq_false_iff.mpr (hp h1)
      · exact Or.inl (Bool.eq_false_iff.mpr h1)
    exact commitBooking_of_error dateBase st userId sid date hh mm sessions note now raise _
      (validate_invalidInput dateBase st sid date hh mm sessions note now hschema hv)
  · intro hnp hg
    have hv : (isValidDate date && isValidTime hh mm) = true := by
      unfold failsParse at hnp
      rw [not_not] at hnp
      rw [Bool.and_eq_true]
      exact hnp
    exact commitBooking_of_error dateBase st userId sid date hh mm sessions note now raise _
      (validate_notOnGrid dateBase st sid date hh mm sessions note now hschema hv
        (Bool.eq_false_iff.mpr hg))
  · intro hnp hng hh3
    have hv : (isValidDate date && isValidTime hh mm) = true := by
      unfold failsParse at hnp
      rw [not_not] at hnp
      rw [Bool.and_eq_true]
      exact hnp
    have hg : isAlignedToStep (wallMinutes hh mm) = true := not_not.mp hng
    obtain ⟨msg, hmsg⟩ := Option.ne_none_iff_exists'.mp hh3
    exact ⟨msg, commitBooking_of_error dateBase st userId sid date hh mm sessions note now
      raise _ (validate_outsideHours dateBase st sid date hh mm sessions note now msg
        hschema hv hg hmsg)⟩
  · intro hnp hng hnh hpast
    have hv : (isValidDate date && isValidTime hh mm) = true := by
      unfold failsParse at hnp
      rw [not_not] at hnp
      rw [Bool.and_eq_true]
      exact hnp
    have hg : isAlignedToStep (wallMinutes hh mm) = true := not_not.mp hng
    have hb : validateWithinBusinessHours (wallMinutes hh mm) sessions = none :=
      not_not.mp hnh
    exact commitBooking_of_error dateBase st userId sid date hh mm sessions note now raise _
      (validate_inThePast dateBase st sid date hh mm sessions note now hschema hv hg hb hpast)
  · intro hnp hng hnh hnpast hserv
    have hv : (isValidDate date && isValidTime hh mm) = true := by
      unfold failsParse at hnp
      rw [not_not] at hnp
      rw [Bool.and_eq_true]
      exact hnp
    have hg : isAlignedToStep (wallMinutes hh mm) = true := not_not.mp hng
    have hb : validateWithinBusinessHours (wallMinutes hh mm) sessions = none :=
      not_not.mp hnh
    unfold failsService at hserv
    cases hf : findService st sid with
    | none =>
        rw [commitBooking_of_error dateBase st userId sid date hh mm sessions note now raise _
          (validate_serviceMissing dateBase st sid date hh mm sessions note now hschema hv hg
            hb hnpast hf)]
        exact ⟨Or.inl rfl, rfl⟩
    | some sv =>
        rw [hf] at hserv
        simp only [] at hserv
        by_cases ha : sv.isActive = true
        · have hd : ¬ sv.durationMin = SESSION_MIN := by
            rcases hserv with hserv | hserv
            · rw [ha] at hserv; cases hserv
            · exact hserv
          rw [commitBooking_of_error dateBase st userId sid date hh mm sessions note now
            raise _ (validate_wrongDuration dateBase st sid date hh mm sessions note now sv
              hschema hv hg hb hnpast hf ha hd)]
          exact ⟨Or.inr rfl, rfl⟩
        · rw [commitBooking_of_error dateBase st userId sid date hh mm sessions note now
            raise _ (validate_serviceInactive dateBase st sid date hh mm sessions note now sv
              hschema hv hg hb hnpast hf (Bool.eq_false_iff.mpr ha))]
          exact ⟨Or.inl rfl, rfl⟩
  · intro hnp hng hnh hnpast hnserv hcov
    have hv : (isValidDate date && isValidTime hh mm) = true := by
      unfold failsParse at hnp
      rw [not_not] at hnp
      rw [Bool.and_eq_true]
      exact hnp
    have hg : isAlignedToStep (wallMinutes hh mm) = true := not_not.mp hng
    have hb : validateWithinBusinessHours (wallMinutes hh mm) sessions = none :=
      not_not.mp hnh
    unfold failsService at hnserv
    cases hf : findService st sid with
    | none =>
        rw [hf] at hnserv
        simp only [] at hnserv
        exact absurd trivial hnserv
    | some sv =>
        rw [hf] at hnserv
        simp only [] at hnserv
        push_neg at hnserv
        obtain ⟨ha, hd⟩ := hnserv
        have ha2 : sv.isActive = true := by
          cases hab : sv.isActive with
          | false => exact absurd hab ha
          | true => rfl
        unfold failsCoverage at hcov
        apply commitBooking_of_error dateBase st userId sid date hh mm sessions note now raise
        apply validate_notCovered dateBase st sid date hh mm sessions note now sv hschema hv
          hg hb hnpast hf ha2 hd
        rw [List.any_eq_true]
        obtain ⟨s0, hs0, hns0⟩ := hcov
        refine ⟨s0, hs0, ?_⟩
        rw [Bool.not_eq_true']
        exact Bool.eq_false_iff.mpr hns0
  · intro m2 n2 hm2
    unfold validateWithinBusinessHours
    rw [if_pos hm2]
  · intro m2 n2 hm2 hne
    unfold validateWithinBusinessHours at hne ⊢
    rw [if_neg hm2] at hne ⊢
    by_cases hx : m2 + ((n2 : Int) - 1) * STEP_MIN + SESSION_MIN > DAY_END_MIN
    · simp only [hx, if_true]
    · exfalso
      apply hne
      simp only [hx, if_false]

/-- Witness for C9: 09:05 is off-grid, so the commit fails with
`notOnGrid` even though the same request also fails the later checks
(30 sessions exceed closing, and the slot is in the past). -/
theorem pipeline_order_witness :
    commitBooking exDateBase exStore "u1" "singing-15" exDate 9 5 30 none 10000 false
      = (.notOnGrid, exStore) :=
  ((pipeline_order exDateBase exStore "u1" "singing-15" exDate 9 5 30 none 10000 false
    (by decide)).2.1) (by unfold failsParse; decide) (by unfold failsGrid; decide)

theorem buildSessionStartsUtc_sorted_lt (inst : Int) (n : Nat) :
    (buildSessionStartsUtc inst n).Pairwise (· < ·) := by
  unfold buildSessionStartsUtc
  rw [List.pairwise_map]
  apply List.Pairwise.imp ?_ (List.pairwise_lt_range n)
  intro a b hab
  simp only [STEP_MIN, SESSION_MIN, BUFFER_MIN]
  omega

/-- **C1** (corrected): each sequential `commitBooking` preserves the
no-double-booking invariant (the transactional re-check refuses claimed
instants), and the storage layer declares only *non-unique* indexes on
`Booking` — no uniqueness constraint backs the invariant. -/
theorem noDoubleBooking_preserved (dateBase : OsloDate → Int) (st : Store)
    (userId sid : String) (date : OsloDate) (hh mm sessions : Nat)
    (note : Option String) (now : Int) (raise : Bool)
    (hinv : noDoubleBooking st) :
    noDoubleBooking
      (commitBooking dateBase st userId sid date hh mm sessions note now raise).2
    ∧ ∀ ix ∈ migrationIndexes, ix.table = "Booking" → ix.unique = false := by
  refine ⟨?_, by decide⟩
  cases hval : validateBookingRequest dateBase st sid date hh mm sessions note now with
  | error e =>
      rw [commitBooking_of_error dateBase st userId sid date hh mm sessions note now raise
        e hval]
      exact hinv
  | ok starts =>
      rw [commitBooking_of_ok dateBase st userId sid date hh mm sessions note now raise
        starts hval]
      by_cases hc : txConflictCheck st sid starts = []
      · cases raise with
        | true =>
            rw [runBookingTransaction_raise st userId sid note starts hc]
            exact hinv
        | false =>
            rw [runBookingTransaction_success st userId sid note starts hc]
            show noDoubleBooking (txInsert st userId sid note starts)
            have hstarts := validate_ok_starts dateBase st sid date hh mm sessions note now
              starts hval
            unfold noDoubleBooking txInsert
            rw [List.pairwise_append]
            refine ⟨hinv, ?_, ?_⟩
            · -- the new rows have pairwise distinct start instants
              have hsorted : (newBookingRows userId sid note st.nextId starts).Pairwise
                  (fun a b => a.startAt < b.startAt) := by
                have h1 : starts.Pairwise (· < ·) := by
                  rw [hstarts]; exact buildSessionStartsUtc_sorted_lt _ _
                rw [← List.enum_map_snd starts] at h1
                rw [List.pairwise_map] at h1
                unfold newBookingRows
                rw [List.pairwise_map]
                exact h1
              apply List.Pairwise.imp ?_ hsorted
              intro a b hab
              intro _ _ _
              omega
            · -- no new row collides with an existing non-cancelled row
              intro b hb r hr
              intro hsvc hbnc hrnc hbr
              obtain ⟨-, hrsid, -, -, -, hrstart⟩ :=
                newBookingRows_mem userId sid note st.nextId starts r hr
              have hbpred := (List.filter_eq_nil_iff.mp hc) b hb
              apply hbpred
              simp only [Bool.and_eq_true, beq_iff_eq, Bool.not_eq_true',
                beq_eq_false_iff_ne, ne_eq]
              refine ⟨⟨by rw [hsvc, hrsid], hbnc⟩, ?_⟩
              rw [List.elem_iff, hbr]
              exact hrstart
      · rw [runBookingTransaction_conflict st userId sid note starts raise hc]
        exact hinv

/-- Counterexample to C1 as stated: the migration has no unique index on
`Booking`, and the check-check-insert-insert interleaving of two commits
of the same slot yields two CONFIRMED bookings of the same service at
the same start instant. -/
theorem noDoubleBooking_cex :
    (¬ ∃ ix ∈ migrationIndexes, ix.table = "Booking" ∧ ix.unique = true)
    ∧ buildSessionStartsUtc (toInstant (exDateBase exDate) 480) 1 = [60]
    ∧ interleavedPair exStore "u1" "u2" "singing-15" "singing-15" none none [60] [60]
        = some exRaceStore
    ∧ ¬ noDoubleBooking exRaceStore := by
  refine ⟨by decide, by decide, by decide, by decide⟩

/-- Witness for the amended C1 at the seeded store. -/
theorem noDoubleBooking_preserved_witness :
    noDoubleBooking
      (commitBooking exDateBase exStore "u1" "singing-15" exDate 8 0 1 none 0 false).2
    ∧ ∀ ix ∈ migrationIndexes, ix.table = "Booking" → ix.unique = false :=
  noDoubleBooking_preserved exDateBase exStore "u1" "singing-15" exDate 8 0 1 none 0 false
    (by decide)

end BookingSystem
